import Mathlib

/-!
Shallow embedding of the fastapi-starter item service.

The embedded code is `app/models/item.py` (the `Item` pydantic models),
`app/routes/items.py` (the in-memory CRUD/search/pagination handlers),
the search filter of `app/routes/db_items.py` (the MongoDB-backed variant),
and `app/routes/root.py` (the health endpoint).

Modelling conventions:
- `datetime.utcnow()` values are natural numbers (e.g. microseconds since the
  epoch); only their ordering is relevant to the spec.
- UUIDs / ObjectIds are natural numbers; the handlers only ever compare them
  for equality.
- The `items_storage` dict is an insertion-ordered association list keyed by
  `Item.id` (Python dicts preserve insertion order; assignment to an existing
  key replaces the value in place, assignment to a fresh key appends).
- Python's `sorted(..., key=..., reverse=True)` is a stable sort; it is
  embedded as a stable insertion sort on the `created_at` key, which has the
  same input/output behaviour as any stable descending sort.
- `str.lower()` is embedded as per-character ASCII lowercasing; every string
  the spec and its examples mention is ASCII.
- `HTTPException(status_code=c)` raised by a handler is the `failure c`
  outcome; a normal return with status `c` is `success c`.
-/

namespace FastapiStarter

/-- Timestamps: `datetime.utcnow()` values, modelled as naturals. -/
abbrev Timestamp := Nat

/-- `app/models/item.py`, class `Item`: `id` (UUID, server-generated),
`name`, optional `description`, `created_at`, `updated_at`. -/
structure Item where
  id : Nat
  name : String
  description : Option String
  created_at : Timestamp
  updated_at : Timestamp
deriving Repr, DecidableEq

/-- `app/models/item.py`, class `ItemCreate`: request body of POST, carrying
only `name` and optional `description` (no id, no timestamps). -/
structure ItemCreate where
  name : String
  description : Option String
deriving Repr, DecidableEq

/-- `app/models/item.py`, class `ItemUpdate`, read with
`dict(exclude_unset=True)`: `none` means the field was absent from the PUT
body.  A present `description` may itself be JSON null, hence the nested
option. -/
structure ItemUpdate where
  name : Option String
  description : Option (Option String)
deriving Repr, DecidableEq

/-- `app/models/item.py`, class `PaginatedItems`. -/
structure PaginatedItems where
  items : List Item
  total_count : Nat
  page : Nat
  size : Nat
  total_pages : Nat
deriving Repr, DecidableEq

/-- Outcome of one handler call: a response body with its HTTP status, or an
`HTTPException` with its status. -/
inductive ApiResult (α : Type) where
  | success (code : Nat) (val : α)
  | failure (code : Nat)
deriving Repr, DecidableEq

/-- `items_storage : Dict[UUID, Item]` as an insertion-ordered list. -/
abbrev Store := List Item

/-- Dict lookup `items_storage[item_id]` / membership `item_id in items_storage`. -/
def findItem (s : Store) (i : Nat) : Option Item :=
  s.find? (fun x => x.id == i)

/-- Dict assignment `items_storage[new_item.id] = new_item`: replace in place
when the key is present, append otherwise. -/
def storePut (s : Store) (it : Item) : Store :=
  if s.any (fun x => x.id == it.id) then
    s.map (fun x => if x.id == it.id then it else x)
  else s ++ [it]

/-- Dict deletion `del items_storage[item_id]`. -/
def storeDel (s : Store) (i : Nat) : Store :=
  s.filter (fun x => !(x.id == i))

/-- Insert `a` into a list already sorted by `created_at` descending, after
every element with a strictly larger key (stability: among equal keys the
element already in the list came earlier in the input). -/
def insertDesc (a : Item) : List Item → List Item
  | [] => [a]
  | b :: t => if a.created_at < b.created_at then b :: insertDesc a t else a :: b :: t

/-- `sorted(items, key=lambda x: x.created_at, reverse=True)`: Python's stable
sort, embedded as stable insertion sort on the `created_at` key. -/
def sortByCreatedDesc : List Item → List Item
  | [] => []
  | a :: t => insertDesc a (sortByCreatedDesc t)

/-- `create_item` (`app/routes/items.py`): build the new `Item` from the body,
with the server-generated id (`uuid4()`) and the two `datetime.utcnow()`
default-factory values passed in as `newId`, `tc`, `tu`; store it; return it
with status 201.  `ItemResponse(**new_item.dict())` copies all five fields, so
the response body is the stored item itself. -/
def create_item (s : Store) (inp : ItemCreate) (newId : Nat) (tc tu : Timestamp) :
    Item × Store :=
  let new_item : Item :=
    { id := newId, name := inp.name, description := inp.description,
      created_at := tc, updated_at := tu }
  (new_item, storePut s new_item)

/-- `get_item` (`app/routes/items.py`): 404 when the id is not a key of the
dict, otherwise the stored item with status 200. -/
def get_item (s : Store) (i : Nat) : ApiResult Item :=
  match findItem s i with
  | none => ApiResult.failure 404
  | some it => ApiResult.success 200 it

/-- `get_items` (`app/routes/items.py`): sort all values by `created_at`
descending, compute `total_pages = (total_count + size - 1) // size`, and
return the slice `all_items[(page-1)*size : (page-1)*size + size]`. -/
def get_items (s : Store) (page size : Nat) : PaginatedItems :=
  let all_items := sortByCreatedDesc s
  let total_count := all_items.length
  let total_pages := (total_count + size - 1) / size
  let start_idx := (page - 1) * size
  { items := (all_items.drop start_idx).take size
    total_count := total_count
    page := page
    size := size
    total_pages := total_pages }

/-- The field-by-field `setattr` loop of `update_item` followed by
`existing_item.updated_at = datetime.utcnow()`: supplied fields are replaced,
absent fields keep their old values, `updated_at` is set to `now`. -/
def applyUpdate (old : Item) (u : ItemUpdate) (now : Timestamp) : Item :=
  { old with
    name := u.name.getD old.name
    description := u.description.getD old.description
    updated_at := now }

/-- `update_item` (`app/routes/items.py`): 404 when the id is absent; then 400
when `item_update.dict(exclude_unset=True)` is empty; otherwise apply the
update, bump `updated_at`, store the result back under the same key and return
it with status 200. -/
def update_item (s : Store) (i : Nat) (u : ItemUpdate) (now : Timestamp) :
    ApiResult Item × Store :=
  match findItem s i with
  | none => (ApiResult.failure 404, s)
  | some old =>
    if u.name.isNone && u.description.isNone then
      (ApiResult.failure 400, s)
    else
      let upd := applyUpdate old u now
      (ApiResult.success 200 upd, storePut s upd)

/-- `delete_item` (`app/routes/items.py`): 404 when the id is absent,
otherwise remove the key and return 204 with no body. -/
def delete_item (s : Store) (i : Nat) : ApiResult Unit × Store :=
  match findItem s i with
  | none => (ApiResult.failure 404, s)
  | some _ => (ApiResult.success 204 (), storeDel s i)

/-- `str.lower()` on the character sequence (ASCII lowering, as every string
in the spec's examples is ASCII). -/
def lowerChars (str : String) : List Char := str.data.map Char.toLower

/-- Python's substring test `needle in hay` on character sequences. -/
def listContains (needle : List Char) : List Char → Bool
  | [] => needle.isEmpty
  | c :: t => needle.isPrefixOf (c :: t) || listContains needle t

/-- The in-memory search predicate `q.lower() in item.name.lower()`. -/
def nameMatches (q name : String) : Bool :=
  listContains (lowerChars q) (lowerChars name)

/-- `search_items` (`app/routes/items.py`): filter the values by the
case-insensitive substring predicate, sort by `created_at` descending, and
paginate exactly as `get_items` does. -/
def search_items (s : Store) (q : String) (page size : Nat) : PaginatedItems :=
  let matching_items := s.filter (fun it => nameMatches q it.name)
  let sorted_matching := sortByCreatedDesc matching_items
  let total_count := sorted_matching.length
  let total_pages := (total_count + size - 1) / size
  let start_idx := (page - 1) * size
  { items := (sorted_matching.drop start_idx).take size
    total_count := total_count
    page := page
    size := size
    total_pages := total_pages }

/-- One token of the regex `search_db_items` hands to MongoDB.  The model
covers the fragment of regex syntax actually exercised here: `.` is the
any-character wildcard, every other character is a literal.  (Queries using
other metacharacters are outside this fragment; the theorems below only apply
the model inside it.) -/
inductive RegexTok where
  | anyChar : RegexTok
  | lit : Char → RegexTok
deriving Repr, DecidableEq

/-- Read the query string as a regex of the fragment above (the code passes
`q` to MongoDB unescaped: `{"name": {"$regex": q, "$options": "i"}}`). -/
def parseRegex (q : String) : List RegexTok :=
  q.data.map (fun c => if c = '.' then RegexTok.anyChar else RegexTok.lit c)

/-- One-token match under the case-insensitive option `i`. -/
def tokMatches : RegexTok → Char → Bool
  | RegexTok.anyChar, _ => true
  | RegexTok.lit a, c => a.toLower == c.toLower

/-- Match the token list against a prefix of the text. -/
def matchesHere : List RegexTok → List Char → Bool
  | [], _ => true
  | _ :: _, [] => false
  | t :: ts, c :: cs => tokMatches t c && matchesHere ts cs

/-- Unanchored regex search: match at some position of the text. -/
def regexSearch (ts : List RegexTok) : List Char → Bool
  | [] => ts.isEmpty
  | c :: cs => matchesHere ts (c :: cs) || regexSearch ts cs

/-- The document-store search predicate of `search_db_items`
(`app/routes/db_items.py`): the name matches the query taken as a
case-insensitive regex. -/
def mongoNameMatch (q name : String) : Bool :=
  regexSearch (parseRegex q) name.data

/-- The characters that are metacharacters in the regex dialect MongoDB uses;
a query containing none of them is, as a regex, a literal string. -/
def regexMetachars : List Char :=
  ['.', '^', '$', '*', '+', '?', '(', ')', '[', ']', '\x7b', '\x7d', '|', '\\']

/-- The query contains no regex metacharacter. -/
def noMetachars (q : String) : Bool :=
  q.data.all (fun c => !(regexMetachars.contains c))

/-- `search_db_items` (`app/routes/db_items.py`): `count_documents` and `find`
over the regex query, sorted by `created_at` descending, with
`skip((page-1)*size).limit(size)`, modelled over the same store
representation. -/
def search_db_items (s : Store) (q : String) (page size : Nat) : PaginatedItems :=
  let matching := s.filter (fun it => mongoNameMatch q it.name)
  let sorted_matching := sortByCreatedDesc matching
  let total_count := sorted_matching.length
  let total_pages := (total_count + size - 1) / size
  let skip := (page - 1) * size
  { items := (sorted_matching.drop skip).take size
    total_count := total_count
    page := page
    size := size
    total_pages := total_pages }

/-- `check_external_service` (`app/routes/root.py`): simulated probe that
unconditionally reports the external service healthy. -/
def check_external_service : Bool := true

/-- Body of the `/health` response. -/
structure HealthStatus where
  status : String
  external_service : String
  uptime_seconds : Nat
deriving Repr, DecidableEq

/-- `health` (`app/routes/root.py`): static `"ok"` status, the probe outcome
rendered as `"healthy"`/`"unhealthy"`, and wall-clock uptime. -/
def health (start_time current_time : Nat) : HealthStatus :=
  { status := "ok"
    external_service := if check_external_service then "healthy" else "unhealthy"
    uptime_seconds := current_time - start_time }

/-- Concatenation of the `items` lists of pages `1 .. total_pages` of
`get_items`. -/
def pagesConcat (s : Store) (size : Nat) : List Item :=
  ((List.range (get_items s 1 size).total_pages).map
    (fun k => (get_items s (k + 1) size).items)).flatten

/-- Concatenation of the `items` lists of pages `1 .. total_pages` of
`search_items`. -/
def searchPagesConcat (s : Store) (q : String) (size : Nat) : List Item :=
  ((List.range (search_items s q 1 size).total_pages).map
    (fun k => (search_items s q (k + 1) size).items)).flatten

/-! ### Properties of the stable sort -/

theorem insertDesc_perm (a : Item) (l : List Item) :
    (insertDesc a l).Perm (a :: l) := by
  induction l with
  | nil => exact List.Perm.refl _
  | cons b t ih =>
    by_cases h : a.created_at < b.created_at
    · simp only [insertDesc, if_pos h]
      exact (ih.cons b).trans (List.Perm.swap a b t)
    · simp only [insertDesc, if_neg h]
      exact List.Perm.refl _

theorem sortByCreatedDesc_perm (l : List Item) :
    (sortByCreatedDesc l).Perm l := by
  induction l with
  | nil => exact List.Perm.refl _
  | cons a t ih =>
    exact (insertDesc_perm a (sortByCreatedDesc t)).trans (ih.cons a)

theorem sortByCreatedDesc_length (l : List Item) :
    (sortByCreatedDesc l).length = l.length :=
  (sortByCreatedDesc_perm l).length_eq

theorem mem_sortByCreatedDesc (l : List Item) (x : Item) :
    x ∈ sortByCreatedDesc l ↔ x ∈ l :=
  (sortByCreatedDesc_perm l).mem_iff

theorem insertDesc_pairwise (a : Item) (l : List Item)
    (h : l.Pairwise (fun x y => y.created_at ≤ x.created_at)) :
    (insertDesc a l).Pairwise (fun x y => y.created_at ≤ x.created_at) := by
  induction l with
  | nil => simp [insertDesc]
  | cons b t ih =>
    rcases List.pairwise_cons.mp h with ⟨hb, ht⟩
    by_cases hab : a.created_at < b.created_at
    · simp only [insertDesc, if_pos hab]
      refine List.pairwise_cons.mpr ⟨?_, ih ht⟩
      intro y hy
      have hy' : y ∈ a :: t := (insertDesc_perm a t).mem_iff.mp hy
      rcases List.mem_cons.mp hy' with hya | hyt
      · subst hya; exact Nat.le_of_lt hab
      · exact hb y hyt
    · simp only [insertDesc, if_neg hab]
      refine List.pairwise_cons.mpr ⟨?_, h⟩
      intro y hy
      rcases List.mem_cons.mp hy with hyb | hyt
      · subst hyb; exact Nat.le_of_not_lt hab
      · exact Nat.le_trans (hb y hyt) (Nat.le_of_not_lt hab)

theorem sortByCreatedDesc_pairwise (l : List Item) :
    (sortByCreatedDesc l).Pairwise (fun x y => y.created_at ≤ x.created_at) := by
  induction l with
  | nil => simp [sortByCreatedDesc]
  | cons a t ih => exact insertDesc_pairwise a (sortByCreatedDesc t) ih

/-! ### Arithmetic of `total_pages = (total_count + size - 1) // size` -/

theorem ceil_pages_nil (S : Nat) (hS : 0 < S) : (0 + S - 1) / S = 0 := by
  have : 0 + S - 1 < S := by omega
  exact Nat.div_eq_of_lt this

theorem ceil_pages_succ (n S : Nat) (hS : 0 < S) (hn : 0 < n) :
    (n + S - 1) / S = ((n - S) + S - 1) / S + 1 := by
  rcases le_or_lt n S with h | h
  · have h1 : n - S = 0 := by omega
    have h2 : n + S - 1 = (n - 1) + S := by omega
    rw [h1, h2, Nat.add_div_right _ hS, Nat.div_eq_of_lt (by omega : n - 1 < S),
      ceil_pages_nil S hS]
  · have h2 : n + S - 1 = ((n - S) + S - 1) + S := by omega
    rw [h2, Nat.add_div_right _ hS]

/-- Splitting any list into consecutive chunks of `S` elements, one per page,
loses and duplicates nothing: the concatenation of the
`(total_count + S - 1) / S` chunks is the original list. -/
theorem chunks_flatten_bounded {α : Type} (S : Nat) (hS : 0 < S) :
    ∀ (n : Nat) (l : List α), l.length ≤ n →
      ((List.range ((l.length + S - 1) / S)).map
        (fun k => ((l.drop (k * S)).take S))).flatten = l := by
  intro n
  induction n with
  | zero =>
    intro l hl
    have h0 : l = [] := List.length_eq_zero.mp (Nat.le_zero.mp hl)
    subst h0
    simp [ceil_pages_nil S hS]
  | succ n ih =>
    intro l hl
    cases l with
    | nil => simp [ceil_pages_nil S hS]
    | cons a t =>
      have hn : 0 < (a :: t).length := by simp
      rw [ceil_pages_succ _ S hS hn, List.range_succ_eq_map, List.map_cons,
        List.map_map, List.flatten_cons]
      have hmap :
          (List.range (((a :: t).length - S + S - 1) / S)).map
              ((fun k => (((a :: t).drop (k * S)).take S)) ∘ Nat.succ)
            = (List.range (((a :: t).length - S + S - 1) / S)).map
              (fun k => ((((a :: t).drop S).drop (k * S)).take S)) := by
        apply List.map_congr_left
        intro k _
        simp only [Function.comp_apply, List.drop_drop]
        have : k * S + S = Nat.succ k * S := (Nat.succ_mul k S).symm
        rw [Nat.add_comm S (k * S), this]
      rw [hmap]
      have hlen : ((a :: t).drop S).length = (a :: t).length - S :=
        List.length_drop _ _
      have hih : ((List.range ((((a :: t).drop S).length + S - 1) / S)).map
          (fun k => ((((a :: t).drop S).drop (k * S)).take S))).flatten
            = (a :: t).drop S := by
        apply ih
        have : (a :: t).length ≤ n + 1 := hl
        omega
      rw [hlen] at hih
      rw [hih]
      simp [List.take_append_drop]

theorem chunks_flatten {α : Type} (S : Nat) (hS : 0 < S) (l : List α) :
    ((List.range ((l.length + S - 1) / S)).map
      (fun k => ((l.drop (k * S)).take S))).flatten = l :=
  chunks_flatten_bounded S hS l.length l (Nat.le_refl _)

/-- The chunk a nonempty list leaves for its last page has exactly
`length - S * (pages - 1)` elements. -/
theorem last_chunk_length {α : Type} (S : Nat) (hS : 0 < S) (l : List α)
    (hl : 0 < l.length) :
    ((l.drop (((l.length + S - 1) / S - 1) * S)).take S).length
      = l.length - S * ((l.length + S - 1) / S - 1) := by
  have h1 : (l.length + S - 1) / S = (l.length - 1) / S + 1 := by
    have h2 : l.length + S - 1 = (l.length - 1) + S := by omega
    rw [h2, Nat.add_div_right _ hS]
  have h3 : (l.length + S - 1) / S - 1 = (l.length - 1) / S := by
    rw [h1, Nat.add_sub_cancel]
  rw [h3]
  have h4 : ((l.length - 1) / S) * S ≤ l.length - 1 := Nat.div_mul_le_self _ _
  have h5 := Nat.div_add_mod (l.length - 1) S
  have h6 := Nat.mod_lt (l.length - 1) hS
  have h7 : ((l.length - 1) / S) * S = S * ((l.length - 1) / S) :=
    Nat.mul_comm _ _
  rw [List.length_take, List.length_drop]
  omega

/-! ### Properties of the dict operations -/

theorem find?_replace_self (s : Store) (it : Item)
    (h : s.any (fun x => x.id == it.id) = true) :
    (s.map (fun x => if x.id == it.id then it else x)).find?
      (fun x => x.id == it.id) = some it := by
  induction s with
  | nil => simp at h
  | cons a tl ih =>
    by_cases ha : a.id = it.id
    · rw [List.map_cons, if_pos (by simp [ha])]
      exact List.find?_cons_of_pos _ (by simp)
    · rw [List.map_cons, if_neg (by simp [ha])]
      rw [List.find?_cons_of_neg _ (by simp [ha])]
      apply ih
      simp only [List.any_cons] at h
      rcases Bool.or_eq_true_iff.mp h with h1 | h1
      · exact absurd (by simpa using h1) ha
      · exact h1

theorem find?_replace_other (s : Store) (it : Item) (j : Nat) (hj : j ≠ it.id) :
    (s.map (fun x => if x.id == it.id then it else x)).find?
      (fun x => x.id == j) = s.find? (fun x => x.id == j) := by
  induction s with
  | nil => rfl
  | cons a tl ih =>
    by_cases ha : a.id = it.id
    · rw [List.map_cons, if_pos (by simp [ha])]
      rw [List.find?_cons_of_neg _ (by simp; omega),
        List.find?_cons_of_neg _ (by simp [ha]; omega)]
      exact ih
    · rw [List.map_cons, if_neg (by simp [ha])]
      by_cases haj : a.id = j
      · rw [List.find?_cons_of_pos _ (by simp [haj]),
          List.find?_cons_of_pos _ (by simp [haj])]
      · rw [List.find?_cons_of_neg _ (by simp [haj]),
          List.find?_cons_of_neg _ (by simp [haj])]
        exact ih

/-- After `items_storage[it.id] = it`, lookup of `it.id` yields `it`. -/
theorem findItem_storePut_self (s : Store) (it : Item) :
    findItem (storePut s it) it.id = some it := by
  unfold storePut findItem
  by_cases h : s.any (fun x => x.id == it.id) = true
  · rw [if_pos h]
    exact find?_replace_self s it h
  · rw [if_neg h]
    have hnone : s.find? (fun x => x.id == it.id) = none := by
      apply List.find?_eq_none.mpr
      intro x hx
      have := (List.any_eq_false.mp (Bool.eq_false_iff.mpr h)) x hx
      simpa using this
    rw [List.find?_append, hnone]
    simp

/-- After `items_storage[it.id] = it`, lookup of any other key is unchanged. -/
theorem findItem_storePut_other (s : Store) (it : Item) (j : Nat)
    (hj : j ≠ it.id) :
    findItem (storePut s it) j = findItem s j := by
  unfold storePut findItem
  by_cases h : s.any (fun x => x.id == it.id) = true
  · rw [if_pos h]
    exact find?_replace_other s it j hj
  · rw [if_neg h]
    rw [List.find?_append]
    have hit : (it.id == j) = false := beq_eq_false_iff_ne.mpr (Ne.symm hj)
    have : List.find? (fun x => x.id == j) [it] = none := by
      simp [List.find?, hit]
    rw [this]
    simp

/-- After `del items_storage[i]`, lookup of `i` fails. -/
theorem findItem_storeDel_self (s : Store) (i : Nat) :
    findItem (storeDel s i) i = none := by
  apply List.find?_eq_none.mpr
  intro x hx
  have hpred := (List.mem_filter.mp hx).2
  simp at hpred
  simp [hpred]

/-- After `del items_storage[i]`, lookup of any other key is unchanged. -/
theorem findItem_storeDel_other (s : Store) (i j : Nat) (hj : j ≠ i) :
    findItem (storeDel s i) j = findItem s j := by
  unfold storeDel findItem
  induction s with
  | nil => rfl
  | cons a tl ih =>
    by_cases ha : a.id = i
    · rw [List.filter_cons_of_neg (by simp [ha])]
      rw [List.find?_cons_of_neg _ (by simp [ha]; omega)]
      exact ih
    · rw [List.filter_cons_of_pos (by simp [ha])]
      by_cases haj : a.id = j
      · rw [List.find?_cons_of_pos _ (by simp [haj]),
          List.find?_cons_of_pos _ (by simp [haj])]
      · rw [List.find?_cons_of_neg _ (by simp [haj]),
          List.find?_cons_of_neg _ (by simp [haj])]
        exact ih

/-- When the ids in the store are distinct (they are dict keys), `del` removes
exactly one entry. -/
theorem storeDel_length (s : Store) (i : Nat) (old : Item)
    (hfind : findItem s i = some old) (hnd : (s.map Item.id).Nodup) :
    (storeDel s i).length + 1 = s.length := by
  induction s with
  | nil => simp [findItem] at hfind
  | cons a tl ih =>
    rw [List.map_cons, List.nodup_cons] at hnd
    by_cases ha : a.id = i
    · unfold storeDel
      rw [List.filter_cons_of_neg (by simp [ha])]
      have heq : tl.filter (fun x => !(x.id == i)) = tl := by
        apply List.filter_eq_self.mpr
        intro x hx
        have : x.id ≠ a.id := by
          intro hxe
          exact hnd.1 (hxe ▸ List.mem_map_of_mem Item.id hx)
        simp [ha ▸ this]
      rw [heq]
      simp
    · unfold findItem at hfind
      rw [List.find?_cons_of_neg _ (by simp [ha])] at hfind
      unfold storeDel
      rw [List.filter_cons_of_pos (by simp [ha])]
      have := ih hfind hnd.2
      unfold storeDel at this
      simp only [List.length_cons]
      omega

/-! ### The regex fragment versus substring containment -/

theorem matchesHere_lit (qs cs : List Char) :
    matchesHere (qs.map RegexTok.lit) cs
      = (qs.map Char.toLower).isPrefixOf (cs.map Char.toLower) := by
  induction qs generalizing cs with
  | nil => cases cs <;> simp [matchesHere, List.isPrefixOf]
  | cons a qs ih =>
    cases cs with
    | nil => simp [matchesHere, List.isPrefixOf]
    | cons c cs =>
      simp [matchesHere, List.isPrefixOf, tokMatches, ih]

theorem regexSearch_lit (qs cs : List Char) :
    regexSearch (qs.map RegexTok.lit) cs
      = listContains (qs.map Char.toLower) (cs.map Char.toLower) := by
  induction cs with
  | nil =>
    cases qs <;> simp [regexSearch, listContains]
  | cons c cs ih =>
    simp only [List.map_cons, regexSearch, listContains, ih]
    rw [← List.map_cons Char.toLower c cs, matchesHere_lit]

/-- A query with no regex metacharacter is, as a regex, the literal sequence
of its characters. -/
theorem parseRegex_noMeta (q : String) (h : noMetachars q = true) :
    parseRegex q = q.data.map RegexTok.lit := by
  unfold parseRegex
  apply List.map_congr_left
  intro c hc
  have hcm := List.all_eq_true.mp h c hc
  have hdot : ¬(c = '.') := by
    intro hceq
    subst hceq
    simp [regexMetachars] at hcm
  simp [hdot]

/-- On metacharacter-free queries the document-store predicate coincides with
the in-memory case-insensitive substring predicate. -/
theorem mongoNameMatch_noMeta (q name : String) (h : noMetachars q = true) :
    mongoNameMatch q name = nameMatches q name := by
  unfold mongoNameMatch nameMatches lowerChars
  rw [parseRegex_noMeta q h, regexSearch_lit]

/-! ### Claim theorems -/

/-- A small concrete store used by the witnesses: three items with distinct
ids and distinct creation timestamps. -/
def demoStore : Store :=
  [{ id := 1, name := "alpha", description := none, created_at := 10, updated_at := 10 },
   { id := 2, name := "beta", description := some "b", created_at := 20, updated_at := 20 },
   { id := 3, name := "gamma", description := none, created_at := 30, updated_at := 30 }]

/-- C1: for every store of `N` items and page size `S` with `1 ≤ S ≤ 100`,
`get_items` reports `total_count = N` and `total_pages = ceil(N/S)` (written
as the code computes it, `(N + S - 1) / S`); the concatenation of the item
lists of pages `1 .. total_pages` is exactly the store sorted by creation
timestamp descending — a permutation of the store (nothing duplicated or
omitted) that is sorted descending on `created_at`; and for `N > 0` the last
page holds exactly `N - S * (total_pages - 1)` items. -/
theorem C1_pagination (s : Store) (S : Nat) (h1 : 1 ≤ S) (h2 : S ≤ 100) :
    (∀ page, (get_items s page S).total_count = s.length) ∧
    (∀ page, (get_items s page S).total_pages = (s.length + S - 1) / S) ∧
    pagesConcat s S = sortByCreatedDesc s ∧
    (sortByCreatedDesc s).Perm s ∧
    (sortByCreatedDesc s).Pairwise (fun a b => b.created_at ≤ a.created_at) ∧
    (0 < s.length →
      (get_items s ((s.length + S - 1) / S) S).items.length
        = s.length - S * ((s.length + S - 1) / S - 1)) := by
  have hS : 0 < S := h1
  have hlen := sortByCreatedDesc_length s
  refine ⟨?_, ?_, ?_, sortByCreatedDesc_perm s, sortByCreatedDesc_pairwise s, ?_⟩
  · intro page
    simp [get_items, hlen]
  · intro page
    simp [get_items, hlen]
  · unfold pagesConcat
    simp only [get_items, Nat.add_sub_cancel]
    exact chunks_flatten S hS (sortByCreatedDesc s)
  · intro hpos
    have hpos' : 0 < (sortByCreatedDesc s).length := by
      rw [hlen]; exact hpos
    have h := last_chunk_length S hS (sortByCreatedDesc s) hpos'
    rw [hlen] at h
    simp only [get_items]
    exact h

/-- Witness for C1: the three-item store with page size 2 (two full pages of
2 and 1, `total_pages = 2`). -/
theorem C1_pagination_witness :
    (get_items demoStore 1 2).total_count = demoStore.length ∧
    (get_items demoStore 2 2).total_pages = (demoStore.length + 2 - 1) / 2 ∧
    pagesConcat demoStore 2 = sortByCreatedDesc demoStore ∧
    (sortByCreatedDesc demoStore).Perm demoStore ∧
    (sortByCreatedDesc demoStore).Pairwise (fun a b => b.created_at ≤ a.created_at) ∧
    (get_items demoStore ((demoStore.length + 2 - 1) / 2) 2).items.length
      = demoStore.length - 2 * ((demoStore.length + 2 - 1) / 2 - 1) := by
  have h := C1_pagination demoStore 2 (by decide) (by decide)
  exact ⟨h.1 1, h.2.1 2, h.2.2.1, h.2.2.2.1, h.2.2.2.2.1,
    h.2.2.2.2.2 (by decide)⟩

/-- C9: requesting a page past the last one does not fail: `get_items` still
returns (with status 200) an empty item list while `total_count` and
`total_pages` describe the whole store; on an empty store every page yields an
empty item list and `total_pages = 0`. -/
theorem C9_out_of_range_page (s : Store) (page S : Nat) (hS : 1 ≤ S)
    (hpast : s.length ≤ (page - 1) * S) :
    (get_items s page S).items = [] ∧
    (get_items s page S).total_count = s.length ∧
    (get_items s page S).total_pages = (s.length + S - 1) / S ∧
    (s = [] → (get_items s page S).total_pages = 0) := by
  have hlen := sortByCreatedDesc_length s
  have hnil : (sortByCreatedDesc s).drop ((page - 1) * S) = [] :=
    List.drop_eq_nil_of_le (by rw [hlen]; exact hpast)
  refine ⟨?_, ?_, ?_, ?_⟩
  · simp [get_items, hnil]
  · simp [get_items, hlen]
  · simp [get_items, hlen]
  · intro hs
    subst hs
    have hlt : S - 1 < S := by omega
    simp [get_items, sortByCreatedDesc, Nat.div_eq_of_lt hlt]

/-- Witness for C9: the empty store, page 5, size 10. -/
theorem C9_out_of_range_page_witness :
    (get_items [] 5 10).items = [] ∧
    (get_items [] 5 10).total_count = ([] : Store).length ∧
    (get_items [] 5 10).total_pages = (([] : Store).length + 10 - 1) / 10 ∧
    (get_items [] 5 10).total_pages = 0 := by
  have h := C9_out_of_range_page [] 5 10 (by decide) (by decide)
  exact ⟨h.1, h.2.1, h.2.2.1, h.2.2.2 rfl⟩

/-- The item named `"Test Item"` from the spec's search example. -/
def testItem0 : Item :=
  { id := 1, name := "Test Item", description := none,
    created_at := 0, updated_at := 0 }

/-- Store holding only `testItem0`. -/
def testItemStore : Store := [testItem0]

/-- C2 counterexample: the claim is false for the document-store backend.
`search_db_items` passes the query to MongoDB as an unescaped case-insensitive
regex, so the query `"t.st"` (the `.` is a wildcard) matches the item named
`"Test Item"` even though `"t.st"` is not a case-insensitive substring of
`"Test Item"` — and the in-memory backend accordingly returns nothing for the
same query. -/
theorem C2_counterexample :
    nameMatches "t.st" "Test Item" = false ∧
    (search_db_items testItemStore "t.st" 1 10).items = [testItem0] ∧
    (search_items testItemStore "t.st" 1 10).items = [] := by
  constructor
  · decide
  · constructor
    · decide
    · decide

/-- C2 amended: the in-memory `search_items` returns (across the
concatenation of all its pages) exactly the items of the store whose name
contains `q` as a case-insensitive substring.  The document-store
`search_db_items` instead treats `q` as a case-insensitive regex; its match
predicate agrees with substring containment whenever `q` contains no regex
metacharacter.  In particular, after creating `"Test Item"`, the queries
`"test"`, `"TEST"` and `"tEsT"` each return exactly one match on both
backends. -/
theorem C2_search_semantics (s : Store) (q : String) (S : Nat)
    (h1 : 1 ≤ S) (h2 : S ≤ 100) :
    (∀ it : Item, it ∈ searchPagesConcat s q S ↔
      it ∈ s ∧ nameMatches q it.name = true) ∧
    (noMetachars q = true →
      ∀ name, mongoNameMatch q name = nameMatches q name) ∧
    ((search_items testItemStore "test" 1 10).total_count = 1 ∧
     (search_items testItemStore "TEST" 1 10).total_count = 1 ∧
     (search_items testItemStore "tEsT" 1 10).total_count = 1 ∧
     (search_db_items testItemStore "test" 1 10).total_count = 1 ∧
     (search_db_items testItemStore "TEST" 1 10).total_count = 1 ∧
     (search_db_items testItemStore "tEsT" 1 10).total_count = 1) := by
  have hS : 0 < S := h1
  refine ⟨?_, ?_, by decide, by decide, by decide, by decide, by decide, by decide⟩
  · have hflat : searchPagesConcat s q S
        = sortByCreatedDesc (s.filter (fun it => nameMatches q it.name)) := by
      unfold searchPagesConcat
      simp only [search_items, Nat.add_sub_cancel]
      exact chunks_flatten S hS _
    intro it
    rw [hflat, mem_sortByCreatedDesc, List.mem_filter]
  · intro h name
    exact mongoNameMatch_noMeta q name h

/-- Witness for C2's amended theorem: the single-item store with query
`"test"` and page size 10. -/
theorem C2_search_semantics_witness :
    (testItem0 ∈ searchPagesConcat testItemStore "test" 10 ↔
      testItem0 ∈ testItemStore ∧ nameMatches "test" testItem0.name = true) ∧
    mongoNameMatch "test" "Test Item" = nameMatches "test" "Test Item" ∧
    (search_items testItemStore "test" 1 10).total_count = 1 ∧
    (search_items testItemStore "TEST" 1 10).total_count = 1 ∧
    (search_items testItemStore "tEsT" 1 10).total_count = 1 ∧
    (search_db_items testItemStore "test" 1 10).total_count = 1 ∧
    (search_db_items testItemStore "TEST" 1 10).total_count = 1 ∧
    (search_db_items testItemStore "tEsT" 1 10).total_count = 1 := by
  have h := C2_search_semantics testItemStore "test" 10 (by decide) (by decide)
  exact ⟨h.1 testItem0, h.2.1 (by decide) "Test Item", h.2.2.1, h.2.2.2.1,
    h.2.2.2.2.1, h.2.2.2.2.2.1, h.2.2.2.2.2.2.1, h.2.2.2.2.2.2.2⟩

/-- The item with id 2 of `demoStore`, used to instantiate hypotheses. -/
def demoItem2 : Item :=
  { id := 2, name := "beta", description := some "b",
    created_at := 20, updated_at := 20 }

/-- A partial update body supplying only the name. -/
def demoUpd : ItemUpdate := { name := some "beta2", description := none }

/-- C3: updating a present item with a non-empty partial body succeeds (200),
changes exactly the supplied fields (a supplied field takes the body's value,
an absent field keeps its old value), keeps the identifier and the creation
timestamp, sets the update timestamp to `now` — strictly greater than its
previous value whenever the clock advanced past it — and leaves every other
key of the store unchanged. -/
theorem C3_partial_update (s : Store) (i : Nat) (u : ItemUpdate)
    (now : Timestamp) (old : Item)
    (hfind : findItem s i = some old)
    (hne : ¬(u.name = none ∧ u.description = none))
    (hclock : old.updated_at < now) :
    (update_item s i u now).1 = ApiResult.success 200 (applyUpdate old u now) ∧
    (applyUpdate old u now).id = old.id ∧
    (applyUpdate old u now).created_at = old.created_at ∧
    (applyUpdate old u now).name = u.name.getD old.name ∧
    (applyUpdate old u now).description = u.description.getD old.description ∧
    old.updated_at < (applyUpdate old u now).updated_at ∧
    findItem (update_item s i u now).2 i = some (applyUpdate old u now) ∧
    (∀ j, j ≠ i → findItem (update_item s i u now).2 j = findItem s j) := by
  have hcond : (u.name.isNone && u.description.isNone) = false := by
    rcases u with ⟨un, ud⟩
    cases un <;> cases ud <;> simp_all
  have hres : update_item s i u now
      = (ApiResult.success 200 (applyUpdate old u now),
         storePut s (applyUpdate old u now)) := by
    unfold update_item
    rw [hfind, hcond]
    simp
  have hid : old.id = i := by
    have := List.find?_some hfind
    simpa using this
  refine ⟨by rw [hres], rfl, rfl, rfl, rfl, hclock, ?_, ?_⟩
  · rw [hres]
    have h := findItem_storePut_self s (applyUpdate old u now)
    have hsame : (applyUpdate old u now).id = i := hid
    rw [hsame] at h
    exact h
  · intro j hj
    rw [hres]
    apply findItem_storePut_other
    have : (applyUpdate old u now).id = i := hid
    rw [this]
    exact hj

/-- Witness for C3: update the name of item 2 of the demo store at time 25. -/
theorem C3_partial_update_witness :
    (update_item demoStore 2 demoUpd 25).1
      = ApiResult.success 200 (applyUpdate demoItem2 demoUpd 25) ∧
    (applyUpdate demoItem2 demoUpd 25).id = demoItem2.id ∧
    (applyUpdate demoItem2 demoUpd 25).created_at = demoItem2.created_at ∧
    (applyUpdate demoItem2 demoUpd 25).name = demoUpd.name.getD demoItem2.name ∧
    (applyUpdate demoItem2 demoUpd 25).description
      = demoUpd.description.getD demoItem2.description ∧
    demoItem2.updated_at < (applyUpdate demoItem2 demoUpd 25).updated_at ∧
    findItem (update_item demoStore 2 demoUpd 25).2 2
      = some (applyUpdate demoItem2 demoUpd 25) ∧
    findItem (update_item demoStore 2 demoUpd 25).2 1 = findItem demoStore 1 := by
  have h := C3_partial_update demoStore 2 demoUpd 25 demoItem2
    (by decide) (by decide) (by decide)
  exact ⟨h.1, h.2.1, h.2.2.1, h.2.2.2.1, h.2.2.2.2.1, h.2.2.2.2.2.1,
    h.2.2.2.2.2.2.1, h.2.2.2.2.2.2.2 1 (by decide)⟩

/-- C4: a PUT on a present id whose body sets no fields is rejected with 400
and the returned store is exactly the input store — the 400 is raised before
any write. -/
theorem C4_empty_update_rejected (s : Store) (i : Nat) (now : Timestamp)
    (old : Item) (hfind : findItem s i = some old) :
    update_item s i { name := none, description := none } now
      = (ApiResult.failure 400, s) := by
  unfold update_item
  rw [hfind]
  simp

/-- Witness for C4: empty update of item 2 of the demo store. -/
theorem C4_empty_update_rejected_witness :
    update_item demoStore 2 { name := none, description := none } 25
      = (ApiResult.failure 400, demoStore) :=
  C4_empty_update_rejected demoStore 2 25 demoItem2 (by decide)

/-- C5: create followed by get on the returned id yields status 200 with an
entity equal in all fields to the create response. -/
theorem C5_create_then_get (s : Store) (inp : ItemCreate) (newId : Nat)
    (tc tu : Timestamp) :
    get_item (create_item s inp newId tc tu).2 newId
      = ApiResult.success 200 (create_item s inp newId tc tu).1 := by
  have h := findItem_storePut_self s
    (Item.mk newId inp.name inp.description tc tu)
  simp only [] at h
  simp [get_item, create_item, h]

/-- C6: delete of a present id returns 204, removes exactly that item (a
subsequent get on the id is 404, every other key is untouched, and — ids
being dict keys, hence distinct — the store shrinks by one); delete of an
absent id returns 404 and leaves the store exactly unchanged. -/
theorem C6_delete_semantics (s : Store) (i : Nat) :
    (∀ old : Item, findItem s i = some old →
      (delete_item s i).1 = ApiResult.success 204 () ∧
      get_item (delete_item s i).2 i = ApiResult.failure 404 ∧
      (∀ j, j ≠ i → findItem (delete_item s i).2 j = findItem s j) ∧
      ((s.map Item.id).Nodup → (delete_item s i).2.length + 1 = s.length)) ∧
    (findItem s i = none → delete_item s i = (ApiResult.failure 404, s)) := by
  constructor
  · intro old hfind
    have hdel : delete_item s i = (ApiResult.success 204 (), storeDel s i) := by
      unfold delete_item
      rw [hfind]
    refine ⟨by rw [hdel], ?_, ?_, ?_⟩
    · rw [hdel]
      simp [get_item, findItem_storeDel_self]
    · intro j hj
      rw [hdel]
      exact findItem_storeDel_other s i j hj
    · intro hnd
      rw [hdel]
      exact storeDel_length s i old hfind hnd
  · intro hnone
    unfold delete_item
    rw [hnone]

/-- Witness for C6: delete item 2 of the demo store (present) and id 4
(absent). -/
theorem C6_delete_semantics_witness :
    (delete_item demoStore 2).1 = ApiResult.success 204 () ∧
    get_item (delete_item demoStore 2).2 2 = ApiResult.failure 404 ∧
    findItem (delete_item demoStore 2).2 1 = findItem demoStore 1 ∧
    (delete_item demoStore 2).2.length + 1 = demoStore.length ∧
    delete_item demoStore 4 = (ApiResult.failure 404, demoStore) := by
  have h := (C6_delete_semantics demoStore 2).1 demoItem2 (by decide)
  exact ⟨h.1, h.2.1, h.2.2.1 1 (by decide), h.2.2.2 (by decide),
    (C6_delete_semantics demoStore 4).2 (by decide)⟩

/-- C7: for a valid create input the response's name and description are the
input's, while id and both timestamps come from the server-side generators
(`uuid4`, `datetime.utcnow`) — the request body has no such fields — and
`updated_at ≥ created_at` holds whenever the two generator calls read a
non-decreasing clock (the `created_at` default factory runs first). -/
theorem C7_create_response (s : Store) (inp : ItemCreate) (newId : Nat)
    (tc tu : Timestamp)
    (hvalid : 1 ≤ inp.name.length ∧ inp.name.length ≤ 100)
    (hclock : tc ≤ tu) :
    (create_item s inp newId tc tu).1.name = inp.name ∧
    (create_item s inp newId tc tu).1.description = inp.description ∧
    (create_item s inp newId tc tu).1.id = newId ∧
    (create_item s inp newId tc tu).1.created_at = tc ∧
    (create_item s inp newId tc tu).1.updated_at = tu ∧
    (create_item s inp newId tc tu).1.created_at
      ≤ (create_item s inp newId tc tu).1.updated_at :=
  ⟨rfl, rfl, rfl, rfl, rfl, hclock⟩

/-- Witness for C7: create `{"name": "A"}` into the demo store. -/
theorem C7_create_response_witness :
    (create_item demoStore { name := "A", description := none } 4 40 41).1.name = "A" ∧
    (create_item demoStore { name := "A", description := none } 4 40 41).1.description = none ∧
    (create_item demoStore { name := "A", description := none } 4 40 41).1.id = 4 ∧
    (create_item demoStore { name := "A", description := none } 4 40 41).1.created_at = 40 ∧
    (create_item demoStore { name := "A", description := none } 4 40 41).1.updated_at = 41 ∧
    (create_item demoStore { name := "A", description := none } 4 40 41).1.created_at
      ≤ (create_item demoStore { name := "A", description := none } 4 40 41).1.updated_at :=
  C7_create_response demoStore { name := "A", description := none } 4 40 41
    ⟨by decide, by decide⟩ (by decide)

/-- A store already holding an item under id 7, for the C8 counterexample. -/
def staleStore : Store :=
  [{ id := 7, name := "A", description := none, created_at := 0, updated_at := 0 }]

/-- C8 counterexample: the code never checks the freshly drawn identifier
against the store (`items_storage[new_item.id] = new_item` is a plain dict
assignment, and `uuid4()` is random, not checked for uniqueness), so a create
whose drawn id collides with an existing key silently overwrites that item:
the store still has one entry and the old item is gone. -/
theorem C8_counterexample :
    (create_item staleStore { name := "B", description := none } 7 1 1).2
      = [{ id := 7, name := "B", description := none, created_at := 1, updated_at := 1 }] ∧
    findItem (create_item staleStore { name := "B", description := none } 7 1 1).2 7
      ≠ some { id := 7, name := "A", description := none, created_at := 0, updated_at := 0 } := by
  constructor
  · decide
  · decide

/-- C8 amended: when the drawn identifier is fresh — which the code relies on
`uuid4` randomness for, without checking — the create appends the new item,
the store grows by exactly one, and every existing item is still present; a
colliding draw instead overwrites (see the counterexample). -/
theorem C8_fresh_id_no_overwrite (s : Store) (inp : ItemCreate) (newId : Nat)
    (tc tu : Timestamp) (hfresh : ∀ x ∈ s, x.id ≠ newId) :
    (create_item s inp newId tc tu).2
      = s ++ [(create_item s inp newId tc tu).1] ∧
    (create_item s inp newId tc tu).2.length = s.length + 1 ∧
    (∀ x ∈ s, x ∈ (create_item s inp newId tc tu).2) := by
  have hany : (s.any (fun x => x.id == newId)) = false := by
    rw [List.any_eq_false]
    intro x hx
    simpa using hfresh x hx
  have happ : (create_item s inp newId tc tu).2
      = s ++ [(create_item s inp newId tc tu).1] := by
    show storePut s (Item.mk newId inp.name inp.description tc tu) = _
    unfold storePut
    simp only [hany, Bool.false_eq_true, if_false, if_neg]
    rfl
  refine ⟨happ, ?_, ?_⟩
  · rw [happ]
    simp
  · intro x hx
    rw [happ]
    exact List.mem_append_left _ hx

/-- Witness for C8's amended theorem: create with the fresh id 4 in the demo
store. -/
theorem C8_fresh_id_no_overwrite_witness :
    (create_item demoStore { name := "A", description := none } 4 40 41).2
      = demoStore ++ [(create_item demoStore { name := "A", description := none } 4 40 41).1] ∧
    (create_item demoStore { name := "A", description := none } 4 40 41).2.length
      = demoStore.length + 1 ∧
    demoItem2 ∈ (create_item demoStore { name := "A", description := none } 4 40 41).2 := by
  have h := C8_fresh_id_no_overwrite demoStore { name := "A", description := none }
    4 40 41 (by decide)
  exact ⟨h.1, h.2.1, h.2.2 demoItem2 (by decide)⟩

/-- C10: the health endpoint always reports `status = "ok"` and
`external_service = "healthy"`, whatever the start and current times, because
`check_external_service` unconditionally returns `True`; only
`uptime_seconds` depends on the inputs. -/
theorem C10_health_static (start_time current_time : Nat) :
    (health start_time current_time).status = "ok" ∧
    (health start_time current_time).external_service = "healthy" ∧
    check_external_service = true :=
  ⟨rfl, rfl, rfl⟩

end FastapiStarter
